/-
Verification development for the detray Runge-Kutta stepper
(`src/core/include/detray/propagator/rk_stepper.ipp`).

The stepper's state, its helper routines (`evaluate_k`, the `try_rk4`
trial, `advance_derivative`, `advance_track`, `advance_jacobian`) and the
adaptive `step` driver are embedded shallowly over the real numbers: the
compile-time linear-algebra plugin becomes a concrete 3-vector structure
and Mathlib matrices, the magnetic field and the navigation-update policy
become function parameters (they are template parameters in the source),
and the trial `while` loop becomes a well-founded recursion (it terminates
because the trial counter is checked against `_max_rk_step_trials`).

Collaborator pieces whose code is not part of the staged sources (the
navigator's `abort`, the `column_wise_operator`, the unit constant `mm`,
the step-size constraint accessor) are modelled from the specification and
are marked as such in their doc comments.
-/
import Mathlib

namespace Detray

noncomputable section

/-! ## The linear-algebra plugin: 3-vectors -/

/-- A 3-vector of the algebra plugin (`vector3`). -/
structure Vec3 where
  x : ℝ
  y : ℝ
  z : ℝ

instance : Zero Vec3 := ⟨⟨0, 0, 0⟩⟩

instance : Add Vec3 := ⟨fun a b => ⟨a.x + b.x, a.y + b.y, a.z + b.z⟩⟩

instance : Sub Vec3 := ⟨fun a b => ⟨a.x - b.x, a.y - b.y, a.z - b.z⟩⟩

instance : Neg Vec3 := ⟨fun a => ⟨-a.x, -a.y, -a.z⟩⟩

instance : SMul ℝ Vec3 := ⟨fun c a => ⟨c * a.x, c * a.y, c * a.z⟩⟩

@[ext]
theorem Vec3.ext' {a b : Vec3} (hx : a.x = b.x) (hy : a.y = b.y) (hz : a.z = b.z) :
    a = b := by
  cases a; cases b; simp_all

@[simp] theorem Vec3.zero_x : (0 : Vec3).x = 0 := rfl

@[simp] theorem Vec3.zero_y : (0 : Vec3).y = 0 := rfl

@[simp] theorem Vec3.zero_z : (0 : Vec3).z = 0 := rfl

@[simp] theorem Vec3.add_x (a b : Vec3) : (a + b).x = a.x + b.x := rfl

@[simp] theorem Vec3.add_y (a b : Vec3) : (a + b).y = a.y + b.y := rfl

@[simp] theorem Vec3.add_z (a b : Vec3) : (a + b).z = a.z + b.z := rfl

@[simp] theorem Vec3.sub_x (a b : Vec3) : (a - b).x = a.x - b.x := rfl

@[simp] theorem Vec3.sub_y (a b : Vec3) : (a - b).y = a.y - b.y := rfl

@[simp] theorem Vec3.sub_z (a b : Vec3) : (a - b).z = a.z - b.z := rfl

@[simp] theorem Vec3.smul_x (c : ℝ) (a : Vec3) : (c • a).x = c * a.x := rfl

@[simp] theorem Vec3.smul_y (c : ℝ) (a : Vec3) : (c • a).y = c * a.y := rfl

@[simp] theorem Vec3.smul_z (c : ℝ) (a : Vec3) : (c • a).z = c * a.z := rfl

/-- `vector::cross` of the algebra plugin. -/
def cross (a b : Vec3) : Vec3 :=
  ⟨a.y * b.z - a.z * b.y, a.z * b.x - a.x * b.z, a.x * b.y - a.y * b.x⟩

/-- `getter::norm`: the Euclidean norm. -/
def vnorm (v : Vec3) : ℝ := Real.sqrt (v.x ^ 2 + v.y ^ 2 + v.z ^ 2)

/-- `vector::normalize`: scale by the reciprocal norm. -/
def normalize (v : Vec3) : Vec3 := (1 / vnorm v) • v

@[simp] theorem cross_zero (a : Vec3) : cross a 0 = 0 := by
  simp [cross]
  rfl

@[simp] theorem zero_cross (a : Vec3) : cross 0 a = 0 := by
  simp [cross]
  rfl

@[simp] theorem smul_zero_vec (c : ℝ) : c • (0 : Vec3) = 0 := by
  show Vec3.mk _ _ _ = _
  simp
  rfl

@[simp] theorem add_zero_vec (a : Vec3) : a + 0 = a := by
  ext <;> simp

@[simp] theorem zero_add_vec (a : Vec3) : 0 + a = a := by
  ext <;> simp

@[simp] theorem vnorm_zero : vnorm 0 = 0 := by
  simp [vnorm]

@[simp] theorem normalize_zero : normalize 0 = 0 := by
  simp [normalize]

theorem vnorm_nonneg (v : Vec3) : 0 ≤ vnorm v := Real.sqrt_nonneg _

theorem vnorm_smul (c : ℝ) (v : Vec3) : vnorm (c • v) = |c| * vnorm v := by
  unfold vnorm
  have h1 : (c • v).x ^ 2 + (c • v).y ^ 2 + (c • v).z ^ 2
      = c ^ 2 * (v.x ^ 2 + v.y ^ 2 + v.z ^ 2) := by
    simp
    ring
  rw [h1, Real.sqrt_mul (sq_nonneg c), Real.sqrt_sq_eq_abs]

theorem vnorm_eq_zero_iff (v : Vec3) : vnorm v = 0 ↔ v = 0 := by
  constructor
  · intro h
    have hx := sq_nonneg v.x
    have hy := sq_nonneg v.y
    have hz := sq_nonneg v.z
    have hsum : v.x ^ 2 + v.y ^ 2 + v.z ^ 2 = 0 := by
      have hnn : 0 ≤ v.x ^ 2 + v.y ^ 2 + v.z ^ 2 := by positivity
      by_contra hne
      have hpos : 0 < v.x ^ 2 + v.y ^ 2 + v.z ^ 2 := lt_of_le_of_ne hnn (Ne.symm hne)
      have hs := Real.sqrt_pos.mpr hpos
      unfold vnorm at h
      linarith
    have hx0 : v.x = 0 := by nlinarith
    have hy0 : v.y = 0 := by nlinarith
    have hz0 : v.z = 0 := by nlinarith
    ext <;> simp [hx0, hy0, hz0]
  · intro h
    subst h
    simp

theorem vnorm_normalize (v : Vec3) (hv : v ≠ 0) : vnorm (normalize v) = 1 := by
  have hn : vnorm v ≠ 0 := fun h => hv ((vnorm_eq_zero_iff v).mp h)
  have hpos : 0 < vnorm v := lt_of_le_of_ne (vnorm_nonneg v) (Ne.symm hn)
  unfold normalize
  rw [vnorm_smul]
  rw [abs_of_pos (by positivity : (0:ℝ) < 1 / vnorm v)]
  field_simp

theorem vnorm_normalize_cases (v : Vec3) :
    vnorm (normalize v) = 1 ∨ normalize v = 0 := by
  by_cases hv : v = 0
  · right
    rw [hv, normalize_zero]
  · left
    exact vnorm_normalize v hv

/-! ## Matrix blocks

`matrix_operator().set_block` of the plugin, for the 8×8 transport matrix:
one version writing a 3×3 block, one writing a 3-vector as a 3×1 block, and
one writing a 3-vector into an 8×1 column (used by `advance_derivative`). -/

/-- The component of a `Vec3` at index `0 ≤ n < 3` (for block writes). -/
def Vec3.nth (v : Vec3) (n : ℕ) : ℝ :=
  if n = 0 then v.x else if n = 1 then v.y else v.z

/-- `set_block(M, B, r, c)` for a 3×3 block `B`. -/
def setBlock33 (M : Matrix (Fin 8) (Fin 8) ℝ) (B : Matrix (Fin 3) (Fin 3) ℝ)
    (r c : ℕ) : Matrix (Fin 8) (Fin 8) ℝ :=
  Matrix.of fun i j =>
    if h : r ≤ i.val ∧ i.val < r + 3 ∧ c ≤ j.val ∧ j.val < c + 3 then
      B ⟨i.val - r, by omega⟩ ⟨j.val - c, by omega⟩
    else M i j

/-- `set_block(M, v, r, c)` for a 3-vector `v` written as a 3×1 block. -/
def setBlockV3 (M : Matrix (Fin 8) (Fin 8) ℝ) (v : Vec3) (r c : ℕ) :
    Matrix (Fin 8) (Fin 8) ℝ :=
  Matrix.of fun i j =>
    if r ≤ i.val ∧ i.val < r + 3 ∧ j.val = c then v.nth (i.val - r) else M i j

/-- `set_block(d, v, r, 0)` for the 8×1 derivative column. -/
def setColBlock (d : Fin 8 → ℝ) (v : Vec3) (r : ℕ) : Fin 8 → ℝ :=
  fun i => if r ≤ i.val ∧ i.val < r + 3 then v.nth (i.val - r) else d i

theorem setBlock33_in (M : Matrix (Fin 8) (Fin 8) ℝ) (B : Matrix (Fin 3) (Fin 3) ℝ)
    (r c : ℕ) (i j : Fin 8) (hi : r ≤ i.val ∧ i.val < r + 3)
    (hj : c ≤ j.val ∧ j.val < c + 3) :
    setBlock33 M B r c i j = B ⟨i.val - r, by omega⟩ ⟨j.val - c, by omega⟩ := by
  unfold setBlock33
  rw [Matrix.of_apply, dif_pos ⟨hi.1, hi.2, hj.1, hj.2⟩]

theorem setBlock33_out (M : Matrix (Fin 8) (Fin 8) ℝ) (B : Matrix (Fin 3) (Fin 3) ℝ)
    (r c : ℕ) (i j : Fin 8)
    (h : ¬(r ≤ i.val ∧ i.val < r + 3 ∧ c ≤ j.val ∧ j.val < c + 3)) :
    setBlock33 M B r c i j = M i j := by
  unfold setBlock33
  rw [Matrix.of_apply, dif_neg h]

theorem setBlockV3_in (M : Matrix (Fin 8) (Fin 8) ℝ) (v : Vec3) (r c : ℕ)
    (i j : Fin 8) (hi : r ≤ i.val ∧ i.val < r + 3) (hj : j.val = c) :
    setBlockV3 M v r c i j = v.nth (i.val - r) := by
  unfold setBlockV3
  rw [Matrix.of_apply, if_pos ⟨hi.1, hi.2, hj⟩]

theorem setBlockV3_out (M : Matrix (Fin 8) (Fin 8) ℝ) (v : Vec3) (r c : ℕ)
    (i j : Fin 8) (h : ¬(r ≤ i.val ∧ i.val < r + 3 ∧ j.val = c)) :
    setBlockV3 M v r c i j = M i j := by
  unfold setBlockV3
  rw [Matrix.of_apply, if_neg h]

/-! ## Data model -/

/-- Free track parameters: global position, direction, charge over momentum
and time (`free_track_parameters`, through the accessors `pos()`, `dir()`,
`qop()`, `time()` the stepper uses). -/
structure FreeTrack where
  pos : Vec3
  dir : Vec3
  qop : ℝ
  time : ℝ

/-- The scratch `step_data`: the four Runge-Kutta stage vectors and the
three sampled field values of one trial step. -/
structure StepData where
  k1 : Vec3
  k2 : Vec3
  k3 : Vec3
  k4 : Vec3
  b_first : Vec3
  b_middle : Vec3
  b_last : Vec3

/-- `step::direction` (forward / backward propagation). -/
inductive StepDir where
  | e_forward
  | e_backward
deriving DecidableEq

/-- The rk_stepper's `state`. `_constraint` stands for
`constraints().template size<>(dir)`: the tightest currently active
step-size constraint for a propagation direction. Modelled from the spec:
the `constrained_step` header is not among the staged sources; the spec
says the accepted step is clamped to "the tightest currently active
constraint (accuracy / actor / aborter — minimum wins)", so the accessor
is kept abstract as a function of the direction. -/
structure RkState where
  track : FreeTrack
  step_data : StepData
  step_size : ℝ
  path_length : ℝ
  tolerance : ℝ
  step_size_cutoff : ℝ
  max_rk_step_trials : ℕ
  jac_transport : Matrix (Fin 8) (Fin 8) ℝ
  derivative : Fin 8 → ℝ
  dir_mode : StepDir
  constraint : StepDir → ℝ

/-- Navigation state, as far as the stepper touches it. Modelled from the
spec: the navigator header is not among the staged sources. `dist` is what
`navigation()` returns — "the navigator's reported distance to the next
candidate", used as the initial step size; `aborted` is the abort flag. -/
structure NavState where
  dist : ℝ
  aborted : Bool

/-- Modelled from the spec: `navigation.abort()` "unconditionally forces
termination" and `step` "returns false only on unrecoverable failure
(navigator is told to abort)" — so `abort` sets the flag and yields `false`,
the value `step` passes through with `return navigation.abort();`. -/
def NavState.abort (n : NavState) : NavState × Bool :=
  ({ n with aborted := true }, false)

/-- The propagation state as the stepper sees it: its own state plus the
navigation state. -/
structure PropState where
  stepping : RkState
  navigation : NavState

/-- Modelled from the spec: `unit_constants::mm`, detray's base length unit
(the units header is not among the staged sources; lengths are measured in
millimetres, so `mm = 1`). -/
def mm : ℝ := 1

/-! ## The stepper's routines (`rk_stepper.ipp`) -/

/-- `state::evaluate_k`: the Runge-Kutta stage vector for field value
`b_field`, stage index `i`, sub-step `h` and previous stage `k_prev`. -/
def evaluate_k (tr : FreeTrack) (b_field : Vec3) (i : ℕ) (h : ℝ) (k_prev : Vec3) :
    Vec3 :=
  if i = 0 then tr.qop • cross tr.dir b_field
  else tr.qop • cross (tr.dir + h • k_prev) b_field

/-- The `try_rk4` lambda of `rk_stepper::step` for trial step size `h`:
samples the field at the mid- and endpoint, fills `k2, k3, k4` (keeping
`b_first` and `k1` of `sd`), and yields the updated step data together with
the local error estimate `max(‖h²(k1−k2−k3+k4)‖, 1e-20)`; the trial is
accepted when the estimate is at most the tolerance. -/
def try_rk4 (field : Vec3 → Vec3) (tr : FreeTrack) (sd : StepData) (h : ℝ) :
    StepData × ℝ :=
  let h2 := h * h
  let half_h := h * 0.5
  let pos := tr.pos
  let dir := tr.dir
  let pos1 := pos + half_h • dir + (h2 * 0.125) • sd.k1
  let b_middle := field pos1
  let k2 := evaluate_k tr b_middle 1 half_h sd.k1
  let k3 := evaluate_k tr b_middle 2 half_h k2
  let pos2 := pos + h • dir + (h2 * 0.5) • k3
  let b_last := field pos2
  let k4 := evaluate_k tr b_last 3 h k3
  let err_vec := h2 • (sd.k1 - k2 - k3 + k4)
  let error_estimate := max (vnorm err_vec) 1e-20
  ({ sd with b_middle := b_middle, k2 := k2, k3 := k3, b_last := b_last, k4 := k4 },
   error_estimate)

/-- `state::advance_derivative`: derivative of position = direction,
derivative of direction = k4 (written at `e_free_pos0 = 0` and
`e_free_dir0 = 4` of the 8×1 derivative). -/
def advance_derivative (s : RkState) : RkState :=
  { s with derivative :=
      setColBlock (setColBlock s.derivative s.track.dir 0) s.step_data.k4 4 }

/-- `state::advance_track`: the track update of an accepted step. -/
def advance_track (s : RkState) : RkState :=
  let sd := s.step_data
  let h := s.step_size
  let pos := s.track.pos + h • s.track.dir + (h * h / 6) • (sd.k1 + sd.k2 + sd.k3)
  let dir := normalize (s.track.dir + (h / 6) • (sd.k1 + (2:ℝ) • (sd.k2 + sd.k3) + sd.k4))
  { s with track := { s.track with pos := pos, dir := dir },
           path_length := s.path_length + h }

/-- Modelled from the spec: `column_wise_operator::cross` (its header is
not among the staged sources). Per the comment in `advance_jacobian`, the
"(X) symbol is column-wise cross product between matrix and vector": each
column `j` of the result is the cross product of column `j` of `M` with
`v`. -/
def colWiseCross (M : Matrix (Fin 3) (Fin 3) ℝ) (v : Vec3) :
    Matrix (Fin 3) (Fin 3) ℝ :=
  Matrix.of fun i j => (cross ⟨M 0 j, M 1 j, M 2 j⟩ v).nth i.val

/-- `dk1dT` of `advance_jacobian`: `qop * cross(Id, b_first)` column-wise. -/
def dk1dT (s : RkState) : Matrix (Fin 3) (Fin 3) ℝ :=
  s.track.qop • colWiseCross 1 s.step_data.b_first

/-- `dk2dT` of `advance_jacobian`. -/
def dk2dT (s : RkState) : Matrix (Fin 3) (Fin 3) ℝ :=
  s.track.qop • colWiseCross (1 + (s.step_size * 0.5) • dk1dT s) s.step_data.b_middle

/-- `dk3dT` of `advance_jacobian`. -/
def dk3dT (s : RkState) : Matrix (Fin 3) (Fin 3) ℝ :=
  s.track.qop • colWiseCross (1 + (s.step_size * 0.5) • dk2dT s) s.step_data.b_middle

/-- `dk4dT` of `advance_jacobian`. -/
def dk4dT (s : RkState) : Matrix (Fin 3) (Fin 3) ℝ :=
  s.track.qop • colWiseCross (1 + s.step_size • dk3dT s) s.step_data.b_last

/-- `dFdT` of `advance_jacobian`: `h * (Id + h/6 * (dk1dT + dk2dT + dk3dT))`. -/
def dFdT (s : RkState) : Matrix (Fin 3) (Fin 3) ℝ :=
  s.step_size • ((1 : Matrix (Fin 3) (Fin 3) ℝ)
    + (s.step_size / 6) • (dk1dT s + dk2dT s + dk3dT s))

/-- `dGdT` of `advance_jacobian`: `Id + h/6 * (dk1dT + 2(dk2dT + dk3dT) + dk4dT)`. -/
def dGdT (s : RkState) : Matrix (Fin 3) (Fin 3) ℝ :=
  (1 : Matrix (Fin 3) (Fin 3) ℝ)
    + (s.step_size / 6) • (dk1dT s + (2:ℝ) • (dk2dT s + dk3dT s) + dk4dT s)

/-- `dk1dL` of `advance_jacobian`: `cross(dir, b_first)`. -/
def dk1dL (s : RkState) : Vec3 :=
  cross s.track.dir s.step_data.b_first

/-- `dk2dL` of `advance_jacobian`. -/
def dk2dL (s : RkState) : Vec3 :=
  cross (s.track.dir + (s.step_size * 0.5) • s.step_data.k1) s.step_data.b_middle
    + (s.track.qop * (s.step_size * 0.5)) • cross (dk1dL s) s.step_data.b_middle

/-- `dk3dL` of `advance_jacobian`. -/
def dk3dL (s : RkState) : Vec3 :=
  cross (s.track.dir + (s.step_size * 0.5) • s.step_data.k2) s.step_data.b_middle
    + (s.track.qop * (s.step_size * 0.5)) • cross (dk2dL s) s.step_data.b_middle

/-- `dk4dL` of `advance_jacobian`. -/
def dk4dL (s : RkState) : Vec3 :=
  cross (s.track.dir + s.step_size • s.step_data.k3) s.step_data.b_last
    + (s.track.qop * s.step_size) • cross (dk3dL s) s.step_data.b_last

/-- `dFdL` of `advance_jacobian`: `h²/6 * (dk1dL + dk2dL + dk3dL)`. -/
def dFdL (s : RkState) : Vec3 :=
  ((s.step_size * s.step_size) / 6) • (dk1dL s + dk2dL s + dk3dL s)

/-- `dGdL` of `advance_jacobian`: `h/6 * (dk1dL + 2(dk2dL + dk3dL) + dk4dL)`. -/
def dGdL (s : RkState) : Vec3 :=
  (s.step_size / 6) • (dk1dL s + (2:ℝ) • (dk2dL s + dk3dL s) + dk4dL s)

/-- The 8×8 transport increment `D` of `advance_jacobian`: the identity
with `dFdT` written at (0,4), `dFdL` at (0,7), `dGdT` at (4,4) and `dGdL`
at (4,7). -/
def transportD (s : RkState) : Matrix (Fin 8) (Fin 8) ℝ :=
  setBlockV3 (setBlock33 (setBlockV3 (setBlock33 1 (dFdT s) 0 4) (dFdL s) 0 7)
    (dGdT s) 4 4) (dGdL s) 4 7

/-- `state::advance_jacobian`: left-multiply the running transport
jacobian by the increment `D`. -/
def advance_jacobian (s : RkState) : RkState :=
  { s with jac_transport := transportD s * s.jac_transport }

/-- Outcome of the step-size adjustment loop of `rk_stepper::step`:
either a trial was accepted (`sd` the step data of the accepted trial, `h`
the accepted step size, `n` the trial counter `n_step_trials` at
acceptance) or the loop aborted (`h` the last, rescaled step size, `n` the
counter at the abort). `trials` records the step size of every RK trial
that was attempted, first trial first. -/
inductive LoopResult where
  | accepted (sd : StepData) (h : ℝ) (n : ℕ) (trials : List ℝ)
  | aborted (sd : StepData) (h : ℝ) (n : ℕ) (trials : List ℝ)

/-- The trial sizes attempted by the loop. -/
def LoopResult.trials : LoopResult → List ℝ
  | .accepted _ _ _ tr => tr
  | .aborted _ _ _ tr => tr

/-- Record one more attempted trial size in front of a loop outcome. -/
def consTrial (h : ℝ) : LoopResult → LoopResult
  | .accepted sd hs n tr => .accepted sd hs n (h :: tr)
  | .aborted sd hs n tr => .aborted sd hs n (h :: tr)

/-- The rescaling factor `step_size_scaling` of a rejected trial:
`min(max(0.25·mm, ⁴√(tolerance / |2·err|)), 4)`. -/
def step_size_scaling (tol err : ℝ) : ℝ :=
  min (max (0.25 * mm) (Real.sqrt (Real.sqrt (tol / |2 * err|)))) 4

/-- The `while (!try_rk4(stepping._step_size))` loop of `rk_stepper::step`:
try the current step size; on rejection rescale it by
`step_size_scaling`, abort when the rescaled size falls below the cutoff
in absolute value or when the number of trials exceeds
`max_rk_step_trials`, and retry otherwise. Terminates because
`n_step_trials` grows by one per rejected trial. -/
def rk_adjust (field : Vec3 → Vec3) (tr : FreeTrack) (tol cutoff : ℝ)
    (maxT : ℕ) (sd : StepData) (h : ℝ) (n : ℕ) : LoopResult :=
  if (try_rk4 field tr sd h).2 ≤ tol then
    .accepted (try_rk4 field tr sd h).1 h n [h]
  else if |h * step_size_scaling tol (try_rk4 field tr sd h).2| < |cutoff| then
    .aborted (try_rk4 field tr sd h).1
      (h * step_size_scaling tol (try_rk4 field tr sd h).2) n [h]
  else if hn : n > maxT then
    .aborted (try_rk4 field tr sd h).1
      (h * step_size_scaling tol (try_rk4 field tr sd h).2) n [h]
  else
    consTrial h (rk_adjust field tr tol cutoff maxT (try_rk4 field tr sd h).1
      (h * step_size_scaling tol (try_rk4 field tr sd h).2) (n + 1))
termination_by maxT + 1 - n
decreasing_by omega

/-- The step data at entry of the trial loop: `b_first` sampled at the
current position and `k1` computed from it (first Runge-Kutta point). -/
def initStepData (field : Vec3 → Vec3) (p : PropState) : StepData :=
  let b_first := field p.stepping.track.pos
  { p.stepping.step_data with
      b_first := b_first,
      k1 := evaluate_k p.stepping.track b_first 0 0 0 }

/-- The trial loop of `rk_stepper::step`, with the arguments `step` passes
it: the initial step size estimate is `navigation()`, the navigator's
reported distance, and the counter starts at 0. -/
def stepLoop (field : Vec3 → Vec3) (p : PropState) : LoopResult :=
  rk_adjust field p.stepping.track p.stepping.tolerance p.stepping.step_size_cutoff
    p.stepping.max_rk_step_trials (initStepData field p) p.navigation.dist 0

/-- The step sizes of the RK trials `step` attempts, first trial first. -/
def step_trials (field : Vec3 → Vec3) (p : PropState) : List ℝ :=
  (stepLoop field p).trials

/-- `rk_stepper::step`. `field` is the magnetic field collaborator
(`_magnetic_field.get_field`) and `policy` the navigation-update policy
`policy_t`; the latter is modelled from the spec as acting on the
navigation state ("run the configured navigation-update policy against the
new state (may further constrain future steps)"). On an aborted loop the
stepper keeps the rescaled step size and scratch data and returns
`navigation.abort()`; on acceptance it sets the propagation direction from
the sign of the accepted step size, clamps the step size against the
active constraint, advances derivative, track and jacobian, runs the
policy, and returns true. -/
def step (field : Vec3 → Vec3) (policy : NavState → NavState) (p : PropState) :
    PropState × Bool :=
  match stepLoop field p with
  | .aborted sdA hA _ _ =>
      let stepping' := { p.stepping with step_data := sdA, step_size := hA }
      let r := p.navigation.abort
      ({ stepping := stepping', navigation := r.1 }, r.2)
  | .accepted sdA hA _ _ =>
      let step_dir : StepDir := if hA ≥ 0 then StepDir.e_forward else StepDir.e_backward
      let s2 : RkState := { p.stepping with step_data := sdA, step_size := hA, dir_mode := step_dir }
      let s3 : RkState :=
        if |s2.step_size| > |s2.constraint step_dir| then
          { s2 with step_size := s2.constraint step_dir }
        else s2
      let s6 := advance_jacobian (advance_track (advance_derivative s3))
      ({ stepping := s6, navigation := policy p.navigation }, true)

/-! ## `bound_state` -/

/-- A rigid transform, standing in for `transform3_t` (rotation and
translation); `bound_state` receives one and ignores it. -/
structure Transform3 where
  rot : Matrix (Fin 3) (Fin 3) ℝ
  trans : Vec3

/-- Bound track parameters: surface link, the six bound-parameter entries
and their covariance (`bound_track_parameters`). -/
structure BoundParams where
  surface_link : ℕ
  vec : Fin 6 → ℝ
  cov : Matrix (Fin 6) (Fin 6) ℝ

/-- The default-constructed `bound_track_parameters` value. -/
def BoundParams.default : BoundParams :=
  { surface_link := 0, vec := fun _ => 0, cov := 0 }

/-- `rk_stepper::bound_state`: the real computation is commented out in
the source ("@TODO: Use detector kernel"); the function returns a
default-constructed `bound_track_parameters` without touching either
argument. -/
def bound_state (_propagation : PropState) (_trf3 : Transform3) : BoundParams :=
  BoundParams.default

/-! ## Helper lemmas about the trial loop -/

/-- The trial counter a loop outcome carries. -/
def LoopResult.count : LoopResult → ℕ
  | .accepted _ _ n _ => n
  | .aborted _ _ n _ => n

@[simp] theorem consTrial_trials (h : ℝ) (r : LoopResult) :
    (consTrial h r).trials = h :: r.trials := by
  cases r <;> rfl

@[simp] theorem consTrial_count (h : ℝ) (r : LoopResult) :
    (consTrial h r).count = r.count := by
  cases r <;> rfl

theorem try_rk4_fst_k1 (field : Vec3 → Vec3) (tr : FreeTrack) (sd : StepData)
    (h : ℝ) : (try_rk4 field tr sd h).1.k1 = sd.k1 := rfl

theorem try_rk4_fst_b_first (field : Vec3 → Vec3) (tr : FreeTrack) (sd : StepData)
    (h : ℝ) : (try_rk4 field tr sd h).1.b_first = sd.b_first := rfl

/-- The error estimate `try_rk4` yields, written through the stage vectors
it stores. -/
theorem try_rk4_err (field : Vec3 → Vec3) (tr : FreeTrack) (sd : StepData)
    (h : ℝ) :
    (try_rk4 field tr sd h).2
      = max (vnorm ((h * h) • ((try_rk4 field tr sd h).1.k1
          - (try_rk4 field tr sd h).1.k2 - (try_rk4 field tr sd h).1.k3
          + (try_rk4 field tr sd h).1.k4))) 1e-20 := rfl

/-- Unfolding of the trial loop when the trial is accepted. -/
theorem rk_adjust_accept (field : Vec3 → Vec3) (tr : FreeTrack) (tol cutoff : ℝ)
    (maxT : ℕ) (sd : StepData) (h : ℝ) (n : ℕ)
    (hacc : (try_rk4 field tr sd h).2 ≤ tol) :
    rk_adjust field tr tol cutoff maxT sd h n
      = .accepted (try_rk4 field tr sd h).1 h n [h] := by
  rw [rk_adjust, if_pos hacc]

/-- Unfolding of the trial loop when the trial is rejected and the rescaled
step size falls below the cutoff. -/
theorem rk_adjust_cutoff (field : Vec3 → Vec3) (tr : FreeTrack) (tol cutoff : ℝ)
    (maxT : ℕ) (sd : StepData) (h : ℝ) (n : ℕ)
    (hrej : ¬ (try_rk4 field tr sd h).2 ≤ tol)
    (hcut : |h * step_size_scaling tol (try_rk4 field tr sd h).2| < |cutoff|) :
    rk_adjust field tr tol cutoff maxT sd h n
      = .aborted (try_rk4 field tr sd h).1
          (h * step_size_scaling tol (try_rk4 field tr sd h).2) n [h] := by
  rw [rk_adjust, if_neg hrej, if_pos hcut]

/-- Unfolding of the trial loop when the trial is rejected, the rescaled
step size stays above the cutoff and the trial budget is exhausted. -/
theorem rk_adjust_budget (field : Vec3 → Vec3) (tr : FreeTrack) (tol cutoff : ℝ)
    (maxT : ℕ) (sd : StepData) (h : ℝ) (n : ℕ)
    (hrej : ¬ (try_rk4 field tr sd h).2 ≤ tol)
    (hcut : ¬ |h * step_size_scaling tol (try_rk4 field tr sd h).2| < |cutoff|)
    (hbud : n > maxT) :
    rk_adjust field tr tol cutoff maxT sd h n
      = .aborted (try_rk4 field tr sd h).1
          (h * step_size_scaling tol (try_rk4 field tr sd h).2) n [h] := by
  rw [rk_adjust, if_neg hrej, if_neg hcut, dif_pos hbud]

/-- Unfolding of the trial loop when the rejected trial is retried with the
rescaled step size. -/
theorem rk_adjust_retry (field : Vec3 → Vec3) (tr : FreeTrack) (tol cutoff : ℝ)
    (maxT : ℕ) (sd : StepData) (h : ℝ) (n : ℕ)
    (hrej : ¬ (try_rk4 field tr sd h).2 ≤ tol)
    (hcut : ¬ |h * step_size_scaling tol (try_rk4 field tr sd h).2| < |cutoff|)
    (hbud : ¬ n > maxT) :
    rk_adjust field tr tol cutoff maxT sd h n
      = consTrial h (rk_adjust field tr tol cutoff maxT (try_rk4 field tr sd h).1
          (h * step_size_scaling tol (try_rk4 field tr sd h).2) (n + 1)) := by
  rw [rk_adjust, if_neg hrej, if_neg hcut, dif_neg hbud]

/-- The loop never decreases the trial counter. -/
theorem rk_adjust_count_ge (field : Vec3 → Vec3) (tr : FreeTrack)
    (tol cutoff : ℝ) (maxT : ℕ) (sd : StepData) (h : ℝ) (n : ℕ) :
    n ≤ (rk_adjust field tr tol cutoff maxT sd h n).count := by
  induction sd, h, n using rk_adjust.induct field tr tol cutoff maxT with
  | case1 sd h n hacc =>
      rw [rk_adjust_accept field tr tol cutoff maxT sd h n hacc]
      exact Nat.le_refl n
  | case2 sd h n hrej hcut =>
      rw [rk_adjust_cutoff field tr tol cutoff maxT sd h n hrej hcut]
      exact Nat.le_refl n
  | case3 sd h n hrej hcut hbud =>
      rw [rk_adjust_budget field tr tol cutoff maxT sd h n hrej hcut hbud]
      exact Nat.le_refl n
  | case4 sd h n hrej hcut hbud ih =>
      rw [rk_adjust_retry field tr tol cutoff maxT sd h n hrej hcut hbud]
      rw [consTrial_count]
      exact Nat.le_trans (Nat.le_succ n) ih

/-- The loop aborts only when the rescaled step size falls below the
cutoff in absolute value or the trial counter exceeds the budget. -/
theorem rk_adjust_aborted_inv (field : Vec3 → Vec3) (tr : FreeTrack)
    (tol cutoff : ℝ) (maxT : ℕ) (sd : StepData) (h : ℝ) (n : ℕ) :
    ∀ sd' h' n' tr', rk_adjust field tr tol cutoff maxT sd h n
        = .aborted sd' h' n' tr' → |h'| < |cutoff| ∨ n' > maxT := by
  induction sd, h, n using rk_adjust.induct field tr tol cutoff maxT with
  | case1 sd h n hacc =>
      intro sd' h' n' tr' heq
      rw [rk_adjust_accept field tr tol cutoff maxT sd h n hacc] at heq
      exact absurd heq (by simp)
  | case2 sd h n hrej hcut =>
      intro sd' h' n' tr' heq
      rw [rk_adjust_cutoff field tr tol cutoff maxT sd h n hrej hcut] at heq
      rw [LoopResult.aborted.injEq] at heq
      obtain ⟨-, hh, -, -⟩ := heq
      subst hh
      exact Or.inl hcut
  | case3 sd h n hrej hcut hbud =>
      intro sd' h' n' tr' heq
      rw [rk_adjust_budget field tr tol cutoff maxT sd h n hrej hcut hbud] at heq
      rw [LoopResult.aborted.injEq] at heq
      obtain ⟨-, -, hn, -⟩ := heq
      subst hn
      exact Or.inr hbud
  | case4 sd h n hrej hcut hbud ih =>
      intro sd' h' n' tr' heq
      rw [rk_adjust_retry field tr tol cutoff maxT sd h n hrej hcut hbud] at heq
      rcases hL : rk_adjust field tr tol cutoff maxT (try_rk4 field tr sd h).1
          (h * step_size_scaling tol (try_rk4 field tr sd h).2) (n + 1) with
        ⟨sd2, h2, n2, tr2⟩ | ⟨sd2, h2, n2, tr2⟩
      · rw [hL] at heq
        exact absurd heq (by simp [consTrial])
      · rw [hL] at heq
        simp only [consTrial, LoopResult.aborted.injEq] at heq
        obtain ⟨-, hh, hn, -⟩ := heq
        subst hh
        subst hn
        exact ih sd2 h2 n2 tr2 hL

/-- An accepted loop outcome stores step data and a step size whose local
error estimate passes the tolerance test. -/
theorem rk_adjust_accepted_err (field : Vec3 → Vec3) (tr : FreeTrack)
    (tol cutoff : ℝ) (maxT : ℕ) (sd : StepData) (h : ℝ) (n : ℕ) :
    ∀ sd' h' n' tr', rk_adjust field tr tol cutoff maxT sd h n
        = .accepted sd' h' n' tr' →
      max (vnorm ((h' * h') • (sd'.k1 - sd'.k2 - sd'.k3 + sd'.k4))) 1e-20 ≤ tol := by
  induction sd, h, n using rk_adjust.induct field tr tol cutoff maxT with
  | case1 sd h n hacc =>
      intro sd' h' n' tr' heq
      rw [rk_adjust_accept field tr tol cutoff maxT sd h n hacc] at heq
      rw [LoopResult.accepted.injEq] at heq
      obtain ⟨hsd, hh, -, -⟩ := heq
      subst hsd
      subst hh
      rw [← try_rk4_err field tr sd h]
      exact hacc
  | case2 sd h n hrej hcut =>
      intro sd' h' n' tr' heq
      rw [rk_adjust_cutoff field tr tol cutoff maxT sd h n hrej hcut] at heq
      exact absurd heq (by simp)
  | case3 sd h n hrej hcut hbud =>
      intro sd' h' n' tr' heq
      rw [rk_adjust_budget field tr tol cutoff maxT sd h n hrej hcut hbud] at heq
      exact absurd heq (by simp)
  | case4 sd h n hrej hcut hbud ih =>
      intro sd' h' n' tr' heq
      rw [rk_adjust_retry field tr tol cutoff maxT sd h n hrej hcut hbud] at heq
      rcases hL : rk_adjust field tr tol cutoff maxT (try_rk4 field tr sd h).1
          (h * step_size_scaling tol (try_rk4 field tr sd h).2) (n + 1) with
        ⟨sd2, h2, n2, tr2⟩ | ⟨sd2, h2, n2, tr2⟩
      · rw [hL] at heq
        simp only [consTrial, LoopResult.accepted.injEq] at heq
        obtain ⟨hsd, hh, -, -⟩ := heq
        subst hsd
        subst hh
        exact ih sd2 h2 n2 tr2 hL
      · rw [hL] at heq
        exact absurd heq (by simp [consTrial])

/-- The first trial of the loop uses exactly the step size it was called
with. -/
theorem rk_adjust_trials_head (field : Vec3 → Vec3) (tr : FreeTrack)
    (tol cutoff : ℝ) (maxT : ℕ) (sd : StepData) (h : ℝ) (n : ℕ) :
    (rk_adjust field tr tol cutoff maxT sd h n).trials.head? = some h := by
  induction sd, h, n using rk_adjust.induct field tr tol cutoff maxT with
  | case1 sd h n hacc =>
      rw [rk_adjust_accept field tr tol cutoff maxT sd h n hacc]
      rfl
  | case2 sd h n hrej hcut =>
      rw [rk_adjust_cutoff field tr tol cutoff maxT sd h n hrej hcut]
      rfl
  | case3 sd h n hrej hcut hbud =>
      rw [rk_adjust_budget field tr tol cutoff maxT sd h n hrej hcut hbud]
      rfl
  | case4 sd h n hrej hcut hbud ih =>
      rw [rk_adjust_retry field tr tol cutoff maxT sd h n hrej hcut hbud]
      rw [consTrial_trials]
      rfl

/-- `step` on an aborted loop: scratch data and step size are stored, the
navigator is told to abort, and the abort's value (false) is returned. -/
theorem step_of_aborted (field : Vec3 → Vec3) (policy : NavState → NavState)
    (p : PropState) (sd : StepData) (h : ℝ) (n : ℕ) (tra : List ℝ)
    (hL : stepLoop field p = .aborted sd h n tra) :
    step field policy p
      = ({ stepping := { p.stepping with step_data := sd, step_size := h },
           navigation := { p.navigation with aborted := true } }, false) := by
  rw [step, hL]
  rfl

/-- `step` on an accepted loop: direction sign, constraint clamp, then the
three advances and the policy. -/
theorem step_of_accepted (field : Vec3 → Vec3) (policy : NavState → NavState)
    (p : PropState) (sd : StepData) (h : ℝ) (n : ℕ) (tra : List ℝ)
    (hL : stepLoop field p = .accepted sd h n tra) :
    step field policy p
      = (let step_dir : StepDir := if h ≥ 0 then .e_forward else .e_backward
         let s2 : RkState :=
           { p.stepping with step_data := sd, step_size := h, dir_mode := step_dir }
         let s3 : RkState :=
           if |s2.step_size| > |s2.constraint step_dir| then
             { s2 with step_size := s2.constraint step_dir }
           else s2
         ({ stepping := advance_jacobian (advance_track (advance_derivative s3)),
            navigation := policy p.navigation }, true)) := by
  rw [step, hL]

/-! ## The claims -/

/-- C1: For every trial step of size `h` attempted inside `rk_stepper::step`,
the local truncation error estimate equals the maximum of the Euclidean norm
of `h²·(k1 − k2 − k3 + k4)` and `1e-20`, and the trial is accepted (the loop
stops at this very trial) if and only if this estimate is at most the
configured integration tolerance. -/
theorem C1_error_estimate_and_acceptance (field : Vec3 → Vec3) (tr : FreeTrack)
    (tol cutoff : ℝ) (maxT : ℕ) (sd : StepData) (h : ℝ) (n : ℕ) :
    (try_rk4 field tr sd h).2
      = max (vnorm (h ^ 2 • ((try_rk4 field tr sd h).1.k1
          - (try_rk4 field tr sd h).1.k2 - (try_rk4 field tr sd h).1.k3
          + (try_rk4 field tr sd h).1.k4))) 1e-20
    ∧ (rk_adjust field tr tol cutoff maxT sd h n
          = .accepted (try_rk4 field tr sd h).1 h n [h]
        ↔ (try_rk4 field tr sd h).2 ≤ tol) := by
  constructor
  · rw [pow_two]
    exact try_rk4_err field tr sd h
  · constructor
    · intro heq
      by_contra hrej
      by_cases hcut : |h * step_size_scaling tol (try_rk4 field tr sd h).2| < |cutoff|
      · rw [rk_adjust_cutoff field tr tol cutoff maxT sd h n hrej hcut] at heq
        exact absurd heq (by simp)
      · by_cases hbud : n > maxT
        · rw [rk_adjust_budget field tr tol cutoff maxT sd h n hrej hcut hbud] at heq
          exact absurd heq (by simp)
        · rw [rk_adjust_retry field tr tol cutoff maxT sd h n hrej hcut hbud] at heq
          have hcnt := rk_adjust_count_ge field tr tol cutoff maxT
            (try_rk4 field tr sd h).1
            (h * step_size_scaling tol (try_rk4 field tr sd h).2) (n + 1)
          rcases hL : rk_adjust field tr tol cutoff maxT (try_rk4 field tr sd h).1
              (h * step_size_scaling tol (try_rk4 field tr sd h).2) (n + 1) with
            ⟨sd2, h2, n2, tr2⟩ | ⟨sd2, h2, n2, tr2⟩
          · rw [hL] at heq hcnt
            simp only [consTrial, LoopResult.accepted.injEq] at heq
            obtain ⟨-, -, hn, -⟩ := heq
            simp only [LoopResult.count] at hcnt
            omega
          · rw [hL] at heq
            exact absurd heq (by simp [consTrial])
    · intro hacc
      exact rk_adjust_accept field tr tol cutoff maxT sd h n hacc

/-- C2: For every accepted step of size `h` with stage vectors `k1..k4`,
`advance_track` moves the position to `pos + h·dir + (h²/6)·(k1+k2+k3)`,
sets the direction to `normalize(dir + (h/6)·(k1 + 2(k2+k3) + k4))` and
increases the accumulated path length by `h`. -/
theorem C2_advance_track_update (s : RkState) :
    (advance_track s).track.pos
      = s.track.pos + s.step_size • s.track.dir
        + (s.step_size ^ 2 / 6) • (s.step_data.k1 + s.step_data.k2 + s.step_data.k3)
    ∧ (advance_track s).track.dir
      = normalize (s.track.dir + (s.step_size / 6)
          • (s.step_data.k1 + (2:ℝ) • (s.step_data.k2 + s.step_data.k3)
              + s.step_data.k4))
    ∧ (advance_track s).path_length = s.path_length + s.step_size := by
  refine ⟨?_, rfl, rfl⟩
  rw [pow_two]
  rfl

/-- C8: `rk_stepper::bound_state` returns a default-constructed
`bound_track_parameters` value and leaves its inputs unread (the function
is constant — the real computation is disabled in the source). -/
theorem C8_bound_state_default (p p' : PropState) (t t' : Transform3) :
    bound_state p t = BoundParams.default ∧ bound_state p t = bound_state p' t' :=
  ⟨rfl, rfl⟩

/-- C3: `rk_stepper::step` returns false exactly when the trial loop
aborts; the loop aborts only when the rescaled step size falls below the
cutoff in absolute value or the number of trials exceeds the configured
maximum; on failure the navigation state is told to abort; and in every
other case the loop exits with a trial whose error estimate passed the
tolerance test and `step` returns true. -/
theorem C3_step_failure (field : Vec3 → Vec3) (policy : NavState → NavState)
    (p : PropState) :
    ((step field policy p).2 = false
        ↔ ∃ sd h n tra, stepLoop field p = .aborted sd h n tra)
    ∧ ((step field policy p).2 = false
        → (step field policy p).1.navigation.aborted = true)
    ∧ (∀ sd h n tra, stepLoop field p = .aborted sd h n tra
        → |h| < |p.stepping.step_size_cutoff| ∨ n > p.stepping.max_rk_step_trials)
    ∧ (∀ sd h n tra, stepLoop field p = .accepted sd h n tra
        → max (vnorm ((h * h) • (sd.k1 - sd.k2 - sd.k3 + sd.k4))) 1e-20
            ≤ p.stepping.tolerance) := by
  refine ⟨?_, ?_,
    fun sd h n tra heq => rk_adjust_aborted_inv field p.stepping.track
      p.stepping.tolerance p.stepping.step_size_cutoff p.stepping.max_rk_step_trials
      (initStepData field p) p.navigation.dist 0 sd h n tra heq,
    fun sd h n tra heq => rk_adjust_accepted_err field p.stepping.track
      p.stepping.tolerance p.stepping.step_size_cutoff p.stepping.max_rk_step_trials
      (initStepData field p) p.navigation.dist 0 sd h n tra heq⟩
  · rcases hL : stepLoop field p with ⟨sdA, hA, nA, trA⟩ | ⟨sdA, hA, nA, trA⟩
    · rw [step_of_accepted field policy p sdA hA nA trA hL]
      simp
    · rw [step_of_aborted field policy p sdA hA nA trA hL]
      simp
  · rcases hL : stepLoop field p with ⟨sdA, hA, nA, trA⟩ | ⟨sdA, hA, nA, trA⟩
    · rw [step_of_accepted field policy p sdA hA nA trA hL]
      simp
    · rw [step_of_aborted field policy p sdA hA nA trA hL]
      simp

/-- C9: when `rk_stepper::step` returns false, the track (position,
direction, qop, time), the accumulated path length, the jacobian transport
matrix and the derivative are unchanged; the whole stepper state differs
from the input at most in the scratch step data and the stored step
size. -/
theorem C9_step_abort_frame (field : Vec3 → Vec3) (policy : NavState → NavState)
    (p : PropState) (hfail : (step field policy p).2 = false) :
    (step field policy p).1.stepping.track = p.stepping.track
    ∧ (step field policy p).1.stepping.path_length = p.stepping.path_length
    ∧ (step field policy p).1.stepping.jac_transport = p.stepping.jac_transport
    ∧ (step field policy p).1.stepping.derivative = p.stepping.derivative
    ∧ (step field policy p).1.stepping
        = { p.stepping with
            step_data := (step field policy p).1.stepping.step_data,
            step_size := (step field policy p).1.stepping.step_size } := by
  rcases hL : stepLoop field p with ⟨sdA, hA, nA, trA⟩ | ⟨sdA, hA, nA, trA⟩
  · rw [step_of_accepted field policy p sdA hA nA trA hL] at hfail
    exact absurd hfail (by simp)
  · rw [step_of_aborted field policy p sdA hA nA trA hL]
    exact ⟨rfl, rfl, rfl, rfl, rfl⟩

/-! ## Concrete inputs for witnesses and counterexamples -/

/-- The zero magnetic field. -/
def field0 : Vec3 → Vec3 := fun _ => 0

/-- All-zero scratch step data. -/
def sdZ : StepData := ⟨0, 0, 0, 0, 0, 0, 0⟩

/-- A track at the origin moving along x with unit charge over momentum. -/
def tr9 : FreeTrack := ⟨0, ⟨1, 0, 0⟩, 1, 0⟩

/-- Stepper state with zero tolerance: every trial is rejected. -/
def rk9 : RkState :=
  { track := tr9, step_data := sdZ, step_size := 0, path_length := 0,
    tolerance := 0, step_size_cutoff := 10, max_rk_step_trials := 100,
    jac_transport := 1, derivative := fun _ => 0, dir_mode := .e_forward,
    constraint := fun _ => 100 }

/-- Propagation state whose first step must abort (zero tolerance, large
cutoff). -/
def p9 : PropState := ⟨rk9, ⟨1, false⟩⟩

@[simp] theorem evaluate_k_zero_b (tr : FreeTrack) (i : ℕ) (h : ℝ) (kp : Vec3) :
    evaluate_k tr 0 i h kp = 0 := by
  unfold evaluate_k
  split <;> simp

/-- `try_rk4` under the zero field: all later stages vanish and the error
estimate is exactly `1e-20`. -/
theorem try_rk4_field0 (tr : FreeTrack) (sd : StepData) (h : ℝ)
    (hk1 : sd.k1 = 0) :
    try_rk4 field0 tr sd h
      = ({ sd with b_middle := 0, k2 := 0, k3 := 0, b_last := 0, k4 := 0 },
         1e-20) := by
  have hz : (0 : Vec3) - 0 - 0 + 0 = 0 := by ext <;> simp
  unfold try_rk4 field0
  simp only [hk1, evaluate_k_zero_b, hz, smul_zero_vec, vnorm_zero]
  rw [max_eq_right (by norm_num : (0:ℝ) ≤ 1e-20)]

theorem initStepData_p9 : initStepData field0 p9 = sdZ := by
  unfold initStepData field0 p9 rk9 sdZ
  simp

theorem stepLoop_p9 :
    stepLoop field0 p9
      = .aborted ({ sdZ with b_middle := 0, k2 := 0, k3 := 0, b_last := 0, k4 := 0 })
          (1 * step_size_scaling 0 1e-20) 0 [1] := by
  have hk1 : sdZ.k1 = 0 := rfl
  have htry := try_rk4_field0 tr9 sdZ 1 hk1
  have hrej : ¬ (try_rk4 field0 tr9 sdZ 1).2 ≤ (0:ℝ) := by
    rw [htry]
    norm_num
  have hscal : step_size_scaling 0 (try_rk4 field0 tr9 sdZ 1).2
      = step_size_scaling 0 1e-20 := by rw [htry]
  have hval : step_size_scaling 0 1e-20 = 0.25 := by
    unfold step_size_scaling mm
    rw [zero_div, Real.sqrt_zero, Real.sqrt_zero]
    norm_num
  have hcut : |(1:ℝ) * step_size_scaling 0 (try_rk4 field0 tr9 sdZ 1).2| < |(10:ℝ)| := by
    rw [hscal, hval, one_mul, abs_of_pos (show (0:ℝ) < 0.25 by norm_num),
      abs_of_pos (show (0:ℝ) < 10 by norm_num)]
    norm_num
  show rk_adjust field0 tr9 0 10 100 (initStepData field0 p9) 1 0 = _
  rw [initStepData_p9]
  rw [rk_adjust_cutoff field0 tr9 0 10 100 sdZ 1 0 hrej hcut]
  rw [htry]

theorem step_p9_false : (step field0 id p9).2 = false := by
  rw [step_of_aborted field0 id p9 _ _ _ _ stepLoop_p9]

/-- Witness for C9: on the concrete aborting input `p9`, `step` returns
false and leaves track and jacobian untouched. -/
theorem C9_step_abort_frame_witness :
    (step field0 id p9).2 = false
    ∧ (step field0 id p9).1.stepping.track = p9.stepping.track
    ∧ (step field0 id p9).1.stepping.jac_transport = p9.stepping.jac_transport := by
  refine ⟨step_p9_false, ?_, ?_⟩
  · exact (C9_step_abort_frame field0 id p9 step_p9_false).1
  · exact (C9_step_abort_frame field0 id p9 step_p9_false).2.2.1

/-- The error estimate of a trial is strictly positive (it is at least
`1e-20`). -/
theorem try_rk4_err_pos (field : Vec3 → Vec3) (tr : FreeTrack) (sd : StepData)
    (h : ℝ) : 0 < (try_rk4 field tr sd h).2 := by
  rw [try_rk4_err]
  exact lt_of_lt_of_le (by norm_num) (le_max_right _ _)

/-- C4: whenever a trial step is rejected, the loop multiplies the step
size `h` by the factor `√√(tolerance / (2·err))` clamped to the interval
`[0.25·mm, 4]` before retrying (or before the abort checks): the factor of
the source, which divides by `|2·err|`, equals the claim's `2·err` form
because the estimate is positive, and the loop continues (or aborts) with
exactly `h` times that factor. -/
theorem C4_rejected_step_rescaling (field : Vec3 → Vec3) (tr : FreeTrack)
    (tol cutoff : ℝ) (maxT : ℕ) (sd : StepData) (h : ℝ) (n : ℕ)
    (hrej : ¬ (try_rk4 field tr sd h).2 ≤ tol) :
    step_size_scaling tol (try_rk4 field tr sd h).2
      = min (max (0.25 * mm)
          (Real.sqrt (Real.sqrt (tol / (2 * (try_rk4 field tr sd h).2))))) 4
    ∧ rk_adjust field tr tol cutoff maxT sd h n
      = (if |h * step_size_scaling tol (try_rk4 field tr sd h).2| < |cutoff| then
           .aborted (try_rk4 field tr sd h).1
             (h * step_size_scaling tol (try_rk4 field tr sd h).2) n [h]
         else if n > maxT then
           .aborted (try_rk4 field tr sd h).1
             (h * step_size_scaling tol (try_rk4 field tr sd h).2) n [h]
         else
           consTrial h (rk_adjust field tr tol cutoff maxT (try_rk4 field tr sd h).1
             (h * step_size_scaling tol (try_rk4 field tr sd h).2) (n + 1))) := by
  constructor
  · have hp := try_rk4_err_pos field tr sd h
    unfold step_size_scaling
    rw [abs_of_pos (by linarith : (0:ℝ) < 2 * (try_rk4 field tr sd h).2)]
  · rw [rk_adjust, if_neg hrej]
    simp only [dite_eq_ite]

/-- Witness for C4: on the concrete rejected trial of `p9` the factor is
the claim's clamped fourth root. -/
theorem C4_rejected_step_rescaling_witness :
    step_size_scaling 0 (try_rk4 field0 tr9 sdZ 1).2
      = min (max (0.25 * mm)
          (Real.sqrt (Real.sqrt (0 / (2 * (try_rk4 field0 tr9 sdZ 1).2))))) 4 := by
  have hrej : ¬ (try_rk4 field0 tr9 sdZ 1).2 ≤ (0:ℝ) := by
    rw [try_rk4_field0 tr9 sdZ 1 rfl]
    norm_num
  exact (C4_rejected_step_rescaling field0 tr9 0 10 100 sdZ 1 0 hrej).1

/-! ## C5: the jacobian transport increment -/

/-- Row/column index of the position block (rows 0–2) inside the 8×8 free
parameterization. -/
def fpos (i : Fin 3) : Fin 8 := ⟨i.val, by have h := i.isLt; omega⟩

/-- Row/column index of the direction block (rows/cols 4–6). -/
def fdir (i : Fin 3) : Fin 8 := ⟨i.val + 4, by have h := i.isLt; omega⟩

/-- The qop column (7). -/
def fqop : Fin 8 := ⟨7, by omega⟩

theorem transportD_dFdT_block (s : RkState) (i j : Fin 3) :
    transportD s (fpos i) (fdir j) = dFdT s i j := by
  have hi := i.isLt
  have hj := j.isLt
  simp only [transportD, setBlockV3, setBlock33, Matrix.of_apply, fpos, fdir,
    fqop, and_true]
  split_ifs <;>
    first
      | (exfalso; omega)
      | simp only [Nat.sub_zero, Nat.add_sub_cancel, Fin.eta]

theorem transportD_dFdL_block (s : RkState) (i : Fin 3) :
    transportD s (fpos i) fqop = (dFdL s).nth i.val := by
  have hi := i.isLt
  simp only [transportD, setBlockV3, setBlock33, Matrix.of_apply, fpos, fqop,
    and_true]
  split_ifs <;>
    first
      | (exfalso; omega)
      | simp only [Nat.sub_zero, Nat.add_sub_cancel, Fin.eta]

theorem transportD_dGdT_block (s : RkState) (i j : Fin 3) :
    transportD s (fdir i) (fdir j) = dGdT s i j := by
  have hi := i.isLt
  have hj := j.isLt
  simp only [transportD, setBlockV3, setBlock33, Matrix.of_apply, fdir, fqop,
    and_true]
  split_ifs <;>
    first
      | (exfalso; omega)
      | simp only [Nat.sub_zero, Nat.add_sub_cancel, Fin.eta]

theorem transportD_dGdL_block (s : RkState) (i : Fin 3) :
    transportD s (fdir i) fqop = (dGdL s).nth i.val := by
  have hi := i.isLt
  simp only [transportD, setBlockV3, setBlock33, Matrix.of_apply, fdir, fqop,
    and_true]
  split_ifs <;>
    first
      | (exfalso; omega)
      | simp only [Nat.sub_zero, Nat.add_sub_cancel, Fin.eta]

theorem transportD_id_outside (s : RkState) (i j : Fin 8)
    (hout : ¬((i.val < 3 ∧ 4 ≤ j.val ∧ j.val < 7) ∨ (i.val < 3 ∧ j.val = 7)
      ∨ (4 ≤ i.val ∧ i.val < 7 ∧ 4 ≤ j.val ∧ j.val < 7)
      ∨ (4 ≤ i.val ∧ i.val < 7 ∧ j.val = 7))) :
    transportD s i j = (1 : Matrix (Fin 8) (Fin 8) ℝ) i j := by
  have hi := i.isLt
  have hj := j.isLt
  simp only [transportD, setBlockV3, setBlock33, Matrix.of_apply, and_true]
  split_ifs <;>
    first
      | (exfalso; omega)
      | rfl

/-! ## C6: the first trial and the step-size constraint -/

/-- Stepper state with a tight step-size constraint of 1 and unit
tolerance. -/
def rk6 : RkState :=
  { track := tr9, step_data := sdZ, step_size := 0, path_length := 0,
    tolerance := 1, step_size_cutoff := 1e-4, max_rk_step_trials := 100,
    jac_transport := 1, derivative := fun _ => 0, dir_mode := .e_forward,
    constraint := fun _ => 1 }

/-- Propagation state whose navigator reports distance 10 while the
constraint allows only 1. -/
def p6 : PropState := ⟨rk6, ⟨10, false⟩⟩

theorem initStepData_p6 : initStepData field0 p6 = sdZ := by
  unfold initStepData field0 p6 rk6 sdZ
  simp

theorem stepLoop_p6 :
    stepLoop field0 p6
      = .accepted ({ sdZ with b_middle := 0, k2 := 0, k3 := 0, b_last := 0, k4 := 0 })
          10 0 [10] := by
  have htry := try_rk4_field0 tr9 sdZ 10 rfl
  have hacc : (try_rk4 field0 tr9 sdZ 10).2 ≤ (1:ℝ) := by
    rw [htry]
    norm_num
  show rk_adjust field0 tr9 1 1e-4 100 (initStepData field0 p6) 10 0 = _
  rw [initStepData_p6]
  rw [rk_adjust_accept field0 tr9 1 1e-4 100 sdZ 10 0 hacc]
  rw [htry]

/-- Counterexample to C6: on `p6` the very first RK trial is run with step
size 10, the navigator's distance, even though the tightest active
constraint is 1 in every direction — the constraint does not bound the
first trial. (`step` still succeeds; the clamp happens only after
acceptance.) -/
theorem C6_first_trial_counterexample :
    (step_trials field0 p6).head? = some 10
    ∧ p6.stepping.constraint StepDir.e_forward = 1
    ∧ p6.stepping.constraint StepDir.e_backward = 1
    ∧ ¬ |(10:ℝ)| ≤ |(1:ℝ)|
    ∧ (step field0 id p6).2 = true := by
  refine ⟨?_, rfl, rfl, ?_, ?_⟩
  · unfold step_trials
    rw [stepLoop_p6]
    rfl
  · rw [abs_of_pos (show (0:ℝ) < 10 by norm_num), abs_of_pos (show (0:ℝ) < 1 by norm_num)]
    norm_num
  · rw [step_of_accepted field0 id p6 _ 10 0 [10] stepLoop_p6]

/-- C6 amended: the first RK trial of `rk_stepper::step` uses exactly the
navigator's reported distance as its step size (hence it is bounded by it,
but not by the step-size constraint); the constraint is applied only after
a trial is accepted, clamping the step size with which the track is then
advanced — the path length grows by the clamped value. -/
theorem C6_first_trial_amended (field : Vec3 → Vec3) (policy : NavState → NavState)
    (p : PropState) :
    (step_trials field p).head? = some p.navigation.dist
    ∧ (∀ sd h n tra, stepLoop field p = .accepted sd h n tra →
        (step field policy p).1.stepping.path_length
          = p.stepping.path_length
            + (if |h| > |p.stepping.constraint
                  (if h ≥ 0 then StepDir.e_forward else StepDir.e_backward)|
               then p.stepping.constraint
                  (if h ≥ 0 then StepDir.e_forward else StepDir.e_backward)
               else h)) := by
  constructor
  · exact rk_adjust_trials_head field p.stepping.track p.stepping.tolerance
      p.stepping.step_size_cutoff p.stepping.max_rk_step_trials
      (initStepData field p) p.navigation.dist 0
  · intro sd h n tra hL
    rw [step_of_accepted field policy p sd h n tra hL]
    by_cases hc : |h| > |p.stepping.constraint
        (if h ≥ 0 then StepDir.e_forward else StepDir.e_backward)|
    · simp only [hc, if_pos, if_true]
      simp [advance_jacobian, advance_track, advance_derivative]
    · simp only [hc, if_neg, if_false]
      simp [advance_jacobian, advance_track, advance_derivative]

/-! ## C7: unit norm of the direction after a successful step -/

/-- A track whose direction is the zero vector. -/
def tr7 : FreeTrack := ⟨0, 0, 1, 0⟩

/-- Stepper state around the zero-direction track. -/
def rk7 : RkState :=
  { track := tr7, step_data := sdZ, step_size := 0, path_length := 0,
    tolerance := 1, step_size_cutoff := 1e-4, max_rk_step_trials := 100,
    jac_transport := 1, derivative := fun _ => 0, dir_mode := .e_forward,
    constraint := fun _ => 100 }

/-- Propagation state on which `step` succeeds but cannot renormalize the
direction. -/
def p7 : PropState := ⟨rk7, ⟨1, false⟩⟩

theorem initStepData_p7 : initStepData field0 p7 = sdZ := by
  unfold initStepData field0 p7 rk7 sdZ
  simp

theorem stepLoop_p7 :
    stepLoop field0 p7
      = .accepted ({ sdZ with b_middle := 0, k2 := 0, k3 := 0, b_last := 0, k4 := 0 })
          1 0 [1] := by
  have htry := try_rk4_field0 tr7 sdZ 1 rfl
  have hacc : (try_rk4 field0 tr7 sdZ 1).2 ≤ (1:ℝ) := by
    rw [htry]
    norm_num
  show rk_adjust field0 tr7 1 1e-4 100 (initStepData field0 p7) 1 0 = _
  rw [initStepData_p7]
  rw [rk_adjust_accept field0 tr7 1 1e-4 100 sdZ 1 0 hacc]
  rw [htry]

/-- Counterexample to C7: on the track state `p7` (zero direction vector)
`step` returns true, yet the direction after the step does not have unit
Euclidean norm — `normalize` maps the vanishing pre-normalization vector
to the zero vector. -/
theorem C7_unit_norm_counterexample :
    (step field0 id p7).2 = true
    ∧ vnorm ((step field0 id p7).1.stepping.track.dir) ≠ 1 := by
  rw [step_of_accepted field0 id p7 _ 1 0 [1] stepLoop_p7]
  refine ⟨rfl, ?_⟩
  have hdir : (1:ℝ) ≥ 0 := by norm_num
  have hcl : ¬ |(1:ℝ)| > |(100:ℝ)| := by
    rw [abs_of_pos (show (0:ℝ) < 1 by norm_num),
      abs_of_pos (show (0:ℝ) < 100 by norm_num)]
    norm_num
  simp [p7, rk7, tr7, sdZ, hdir, hcl, advance_jacobian, advance_track,
    advance_derivative, normalize_zero, vnorm_zero]

/-- C7 amended: whenever `rk_stepper::step` returns true, the direction of
the track after the step either has unit Euclidean norm or is the zero
vector; the latter occurs exactly when the pre-normalization vector
`dir + h/6·(k1 + 2(k2+k3) + k4)` vanishes (in real arithmetic `normalize`
maps the zero vector to itself). -/
theorem C7_unit_norm_amended (field : Vec3 → Vec3) (policy : NavState → NavState)
    (p : PropState) (hT : (step field policy p).2 = true) :
    vnorm ((step field policy p).1.stepping.track.dir) = 1
    ∨ (step field policy p).1.stepping.track.dir = 0 := by
  rcases hL : stepLoop field p with ⟨sdA, hA, nA, trA⟩ | ⟨sdA, hA, nA, trA⟩
  · rw [step_of_accepted field policy p sdA hA nA trA hL]
    simp only [advance_jacobian, advance_track, advance_derivative]
    exact vnorm_normalize_cases _
  · rw [step_of_aborted field policy p sdA hA nA trA hL] at hT
    exact absurd hT (by simp)

/-- Witness for the amended C7: on the successful step from `p6` the
direction after the step is unit-norm or zero (here it is unit-norm: the
entry direction is the unit x-vector and the field vanishes). -/
theorem C7_unit_norm_amended_witness :
    (step field0 id p6).2 = true
    ∧ (vnorm ((step field0 id p6).1.stepping.track.dir) = 1
       ∨ (step field0 id p6).1.stepping.track.dir = 0) := by
  have hT : (step field0 id p6).2 = true := by
    rw [step_of_accepted field0 id p6 _ 10 0 [10] stepLoop_p6]
  exact ⟨hT, C7_unit_norm_amended field0 id p6 hT⟩

/-- C5: after every accepted step, `advance_jacobian` updates the running
8×8 transport jacobian by left multiplication with the increment `D`, and
`D` equals the identity except for the blocks `dF/dT` (rows 0–2, cols
4–6), `dF/dL` (rows 0–2, col 7), `dG/dT` (rows 4–6, cols 4–6) and `dG/dL`
(rows 4–6, col 7), whose contents are the `dFdT`, `dFdL`, `dGdT`, `dGdL`
matrices/vectors built from the column-wise cross-product recurrence
(`dk1dT..dk4dT`) and the direct vector recurrence (`dk1dL..dk4dL`). -/
theorem C5_advance_jacobian_transport (s : RkState) :
    (advance_jacobian s).jac_transport = transportD s * s.jac_transport
    ∧ (∀ i j : Fin 8,
        ¬((i.val < 3 ∧ 4 ≤ j.val ∧ j.val < 7) ∨ (i.val < 3 ∧ j.val = 7)
          ∨ (4 ≤ i.val ∧ i.val < 7 ∧ 4 ≤ j.val ∧ j.val < 7)
          ∨ (4 ≤ i.val ∧ i.val < 7 ∧ j.val = 7))
        → transportD s i j = (1 : Matrix (Fin 8) (Fin 8) ℝ) i j)
    ∧ (∀ i j : Fin 3, transportD s (fpos i) (fdir j) = dFdT s i j)
    ∧ (∀ i : Fin 3, transportD s (fpos i) fqop = (dFdL s).nth i.val)
    ∧ (∀ i j : Fin 3, transportD s (fdir i) (fdir j) = dGdT s i j)
    ∧ (∀ i : Fin 3, transportD s (fdir i) fqop = (dGdL s).nth i.val) :=
  ⟨rfl, transportD_id_outside s, transportD_dFdT_block s, transportD_dFdL_block s,
   transportD_dGdT_block s, transportD_dGdL_block s⟩

end

end Detray
